import Mathlib

/-!
Shallow embedding of the SCSI hard-disk device core
(src/src/raspberrypi/devices/scsihd.cpp): Reset, Open, Inquiry and
ModeSelect, together with the device state they share.  Byte buffers are
modelled as total functions `Nat → Nat` whose values are byte values;
machine integers are `Nat`/`Int` with explicit `% 2 ^ 32` (the `DWORD`
cast) and an explicit 32-bit signed reinterpretation where the source
casts to `int`.
-/

namespace RASCSI

/-- Status codes used by the handlers (source constants `STATUS_NOERROR`,
`STATUS_INVALIDCDB`, `STATUS_INVALIDPRM`, `STATUS_NOTREADY`). -/
inductive StatusCode where
  | noError
  | invalidCdb
  | invalidPrm
  | notReady
  deriving DecidableEq, Repr

/-- The geometry part of the base-class `disk` record used by this file:
`disk.size` is the sector-size exponent, `disk.blocks` the block count
(a `DWORD`). -/
structure DiskGeom where
  size : Nat
  blocks : Nat
  deriving DecidableEq, Repr

/-- Device state shared by the handlers.  `ready`, `locked`, `attn`,
`resetPending`, the status code and the identity strings live in the base
class; the spec documents them as DeviceState. -/
structure DeviceState where
  ready : Bool
  locked : Bool
  attn : Bool
  resetPending : Bool
  status : StatusCode
  disk : DiskGeom
  vendor : String
  product : String
  revision : String
  writeProtected : Bool
  deriving DecidableEq, Repr

/-- Modelled from the spec: the base-class setters `SetLocked`, `SetAttn`,
`SetReset`, `SetStatusCode` (their bodies are not under src/) are plain
field updates on the device state; `SCSIHD::Reset` (scsihd.cpp:44-53)
calls them in sequence. -/
def Reset (s : DeviceState) : DeviceState :=
  { s with locked := false, attn := false, resetPending := false,
           status := StatusCode.noError }

/-- The capacity-tiered product name computed by `SCSIHD::Open`
(scsihd.cpp:92-111) from `capacity = disk.blocks >> 11`. -/
def productName (capacity : Nat) : String :=
  if capacity < 300 then "PRODRIVE LPS" ++ toString capacity ++ "S"
  else if capacity < 600 then "MAVERICK" ++ toString capacity ++ "S"
  else if capacity < 800 then "LIGHTNING" ++ toString capacity ++ "S"
  else if capacity < 1000 then "TRAILBRAZER" ++ toString capacity ++ "S"
  else if capacity < 2000 then "FIREBALL" ++ toString capacity ++ "S"
  else "FBSE" ++ toString (capacity / 1000) ++ "." ++
       toString (capacity % 1000 / 100) ++ "S"

/-- `SCSIHD::Open` (scsihd.cpp:60-116).  `fileOpenOk` stands for the
backing store opening read-only; `size` is the byte size the store
reports.  Every `throw` in the source happens before any mutation, so an
error return carries no state.  The final `Disk::Open` call is not under
src/; modelled from the spec: "Mark device ready".  The `(DWORD)` cast on
`size >> 9` is `% 2 ^ 32`. -/
def Open (s : DeviceState) (fileOpenOk : Bool) (size : Nat) :
    Except String DeviceState :=
  if !fileOpenOk then Except.error "Can't open hard disk file read-only"
  else if size &&& 0x1ff ≠ 0 then
    Except.error "File size must be a multiple of 512 bytes"
  else if size > 2 * 1024 * 1024 * 1024 * 1024 then
    Except.error "File size must not exceed 2 TB"
  else
    let blocks := (size >>> 9) % 2 ^ 32
    let capacity := blocks >>> 11
    Except.ok { s with disk := { size := 9, blocks := blocks },
                       product := productName capacity,
                       ready := true }

/-- C++ exception semantics around `Open`: a caller that catches the
`ioexception` sees the device state unchanged (every throw in the source
precedes every mutation).  Returns the state afterwards and whether the
call succeeded. -/
def OpenRun (s : DeviceState) (fileOpenOk : Bool) (size : Nat) :
    DeviceState × Bool :=
  match Open s fileOpenOk size with
  | Except.ok s2 => (s2, true)
  | Except.error _ => (s, false)

/-- The state of a freshly constructed non-removable `SCSIHD`
(scsihd.cpp:34-37): not ready, write-protected, no identity yet.
Modelled from the spec: the base-class constructor defaults
(transient flags clear, status NoError). -/
def initState : DeviceState :=
  { ready := false, locked := false, attn := false, resetPending := false,
    status := StatusCode.noError, disk := { size := 0, blocks := 0 },
    vendor := "", product := "", revision := "", writeProtected := true }

/-- Reinterpretation of a `DWORD` value as a C `int`: 32-bit two's
complement. -/
def toInt32 (n : Nat) : Int :=
  if n % 2 ^ 32 < 2 ^ 31 then (n % 2 ^ 32 : Nat)
  else (n % 2 ^ 32 : Nat) - 2 ^ 32

/-- A string as byte values, truncated or space-padded to exactly `k`
bytes. -/
def padTo (str : String) (k : Nat) : List Nat :=
  (str.toList.map Char.toNat ++ List.replicate k 0x20).take k

/-- Modelled from the spec: the base-class `GetPaddedName` (not under
src/) produces "28 bytes of space-padded vendor/product/revision
identity, truncated/padded to exactly 28 bytes" (8 vendor + 16 product +
4 revision). -/
def GetPaddedName (s : DeviceState) : List Nat :=
  padTo s.vendor 8 ++ padTo s.product 16 ++ padTo s.revision 4

/-- Result of `Inquiry`: the returned size (an `int`), the state
afterwards, and the response buffer afterwards. -/
structure InquiryResult where
  size : Int
  state : DeviceState
  buf : Nat → Nat

/-- `SCSIHD::Inquiry` (scsihd.cpp:123-173).  `cdb` holds the command
descriptor bytes (each a `DWORD` in the source, byte-valued by the caller
contract); `buf` is the response buffer; `lun` is the device's assigned
logical unit (base-class `GetLun`, modelled from the spec).  The writes
are, in source order: zero bytes 0..7, optionally mark byte 0 on LUN
mismatch, set bytes 2, 3, 4, copy the 28-byte padded identity to
bytes 8..35. -/
def Inquiry (s : DeviceState) (cdb : Nat → Nat) (buf : Nat → Nat)
    (lun : Nat) : InquiryResult :=
  if cdb 1 &&& 0x01 ≠ 0 then
    ⟨0, { s with status := StatusCode.invalidCdb }, buf⟩
  else if !s.ready then
    ⟨0, { s with status := StatusCode.notReady }, buf⟩
  else
    let buf1 : Nat → Nat := fun i => if i < 8 then 0 else buf i
    let buf2 : Nat → Nat :=
      if (cdb 1 >>> 5) &&& 0x07 ≠ lun then
        fun i => if i = 0 then 0x7f else buf1 i
      else buf1
    let buf3 : Nat → Nat := fun i =>
      if i = 2 then 0x02 else if i = 3 then 0x02
      else if i = 4 then 122 + 3 else buf2 i
    let name := GetPaddedName s
    let buf4 : Nat → Nat := fun i =>
      if 8 ≤ i ∧ i < 36 then name.getD (i - 8) 0 else buf3 i
    let size0 : Int := (buf4 4 : Int) + 5
    let size1 : Int :=
      if size0 > toInt32 (cdb 4) then toInt32 (cdb 4) else size0
    ⟨size1, { s with status := StatusCode.noError }, buf4⟩

/-- Result of the mode-page loop: whether it completed without a geometry
mismatch, the absolute buffer offsets it read (in order), and the
absolute offset each visited page starts at. -/
structure ParseResult where
  ok : Bool
  accesses : List Nat
  pageStarts : List Nat
  deriving DecidableEq, Repr

/-- The page loop of `SCSIHD::ModeSelect` (scsihd.cpp:207-248).  `e` is
`disk.size`, `off` the cursor's absolute offset into the buffer,
`length` the remaining byte count (an `int`: it may go negative).  Each
iteration reads the page code at `off`; a page code 3 checks the two
block-length bytes at `off + 0xc` / `off + 0xd` (short-circuit: the
second only when the first matched) and aborts on mismatch; a page
code 8 additionally reads the `length` bytes from `off` (the diagnostic
dump); then the length byte at `off + 1` gives the advance
`buf[1] + 2`. -/
def parsePages (e : Nat) (buf : Nat → Nat) (off : Nat) (length : Int) :
    ParseResult :=
  if _h : 0 < length then
    let page := buf off
    if page = 3 ∧ buf (off + 0xc) ≠ ((1 <<< e) >>> 8) % 256 then
      ⟨false, [off, off + 0xc], [off]⟩
    else if page = 3 ∧ buf (off + 0xd) ≠ (1 <<< e) % 256 then
      ⟨false, [off, off + 0xc, off + 0xd], [off]⟩
    else
      let caseAccesses : List Nat :=
        if page = 3 then [off + 0xc, off + 0xd]
        else if page = 8 then (List.range length.toNat).map (fun i => off + i)
        else []
      let adv := buf (off + 1) + 2
      let r := parsePages e buf (off + adv) (length - adv)
      ⟨r.ok, off :: caseAccesses ++ (off + 1) :: r.accesses,
       off :: r.pageStarts⟩
  else ⟨true, [], []⟩
termination_by length.toNat
decreasing_by omega

/-- Result of `ModeSelect`: the returned `BOOL`, the state afterwards,
and the loop's access / page-start traces. -/
structure ModeSelectResult where
  ok : Bool
  state : DeviceState
  accesses : List Nat
  pageStarts : List Nat

/-- `SCSIHD::ModeSelect` (scsihd.cpp:181-255).  Only the PF path
(`cdb[1] & 0x10`) validates: with `length >= 12` the mode-parameter
header's big-endian block length at bytes 9..11 must equal
`1 << disk.size` (short-circuit reads), then the cursor advances past
the 12-byte header and the page loop runs on the rest.  The function
never writes `disk`; it only sets the status code. -/
def ModeSelect (s : DeviceState) (cdb : Nat → Nat) (buf : Nat → Nat)
    (length : Int) : ModeSelectResult :=
  if cdb 1 &&& 0x10 ≠ 0 then
    if 12 ≤ length then
      let size := 1 <<< s.disk.size
      if buf 9 ≠ (size >>> 16) % 256 then
        ⟨false, { s with status := StatusCode.invalidPrm }, [9], []⟩
      else if buf 10 ≠ (size >>> 8) % 256 then
        ⟨false, { s with status := StatusCode.invalidPrm }, [9, 10], []⟩
      else if buf 11 ≠ size % 256 then
        ⟨false, { s with status := StatusCode.invalidPrm }, [9, 10, 11], []⟩
      else
        let r := parsePages s.disk.size buf 12 (length - 12)
        if r.ok then
          ⟨true, { s with status := StatusCode.noError },
           [9, 10, 11] ++ r.accesses, r.pageStarts⟩
        else
          ⟨false, { s with status := StatusCode.invalidPrm },
           [9, 10, 11] ++ r.accesses, r.pageStarts⟩
    else
      let r := parsePages s.disk.size buf 0 length
      if r.ok then
        ⟨true, { s with status := StatusCode.noError }, r.accesses,
         r.pageStarts⟩
      else
        ⟨false, { s with status := StatusCode.invalidPrm }, r.accesses,
         r.pageStarts⟩
  else ⟨true, { s with status := StatusCode.noError }, [], []⟩

/-! ## Helper lemmas -/

theorem land511_eq_mod (n : Nat) : n &&& 0x1ff = n % 512 := by
  have h := Nat.and_pow_two_sub_one_eq_mod n 9
  norm_num at h
  exact h

theorem twoTB_eq : (2 * 1024 * 1024 * 1024 * 1024 : Nat) = 2 ^ 41 := by
  norm_num

/-! ## Claims -/

/-- C9: `Reset` sets `locked`, `attn` and `resetPending` to false and the
status to NoError, leaves every other field (including `ready`, the disk
geometry and the identity strings) unchanged, and is idempotent. -/
theorem reset_contract (s : DeviceState) :
    Reset s = { s with locked := false, attn := false,
                       resetPending := false,
                       status := StatusCode.noError } ∧
    Reset (Reset s) = Reset s ∧
    (Reset s).ready = s.ready ∧
    (Reset s).disk = s.disk ∧
    (Reset s).vendor = s.vendor ∧
    (Reset s).product = s.product ∧
    (Reset s).revision = s.revision ∧
    (Reset s).writeProtected = s.writeProtected ∧
    (Reset s).locked = false ∧
    (Reset s).attn = false ∧
    (Reset s).resetPending = false ∧
    (Reset s).status = StatusCode.noError :=
  ⟨rfl, rfl, rfl, rfl, rfl, rfl, rfl, rfl, rfl, rfl, rfl, rfl⟩

/-- C7: `Inquiry` with the VPD flag set (bit 0 of `cdb[1]`) returns 0 and
sets the status to InvalidCdb regardless of readiness — the check comes
before the readiness check — and writes no response byte (the buffer is
returned unchanged). -/
theorem inquiry_vpd_rejected (s : DeviceState) (cdb buf : Nat → Nat)
    (lun : Nat) (hvpd : cdb 1 &&& 0x01 ≠ 0) :
    Inquiry s cdb buf lun =
      ⟨0, { s with status := StatusCode.invalidCdb }, buf⟩ := by
  unfold Inquiry
  rw [if_pos hvpd]

/-- C7 witness: a not-ready device still rejects a VPD request with
InvalidCdb and an untouched buffer. -/
theorem inquiry_vpd_rejected_witness :
    Inquiry initState (fun i => if i = 1 then 1 else 0) (fun _ => 7) 0 =
      ⟨0, { initState with status := StatusCode.invalidCdb },
       fun _ => 7⟩ :=
  inquiry_vpd_rejected initState (fun i => if i = 1 then 1 else 0)
    (fun _ => 7) 0 (by decide)

theorem shiftRight9_eq_div (n : Nat) : n >>> 9 = n / 512 := by
  rw [Nat.shiftRight_eq_div_pow]

/-- C1 counterexample: at byte size exactly 2^41 (2 TiB) `Open`
succeeds — the ceiling check is strict — but the `DWORD` cast truncates
`size >> 9 = 2^32` to a block count of 0, which differs from
`byteSize / 512 = 2^32`. -/
theorem open_blocks_truncated_at_2TB :
    (Open initState true (2 ^ 41) =
      Except.ok { initState with
                  disk := ⟨9, 0⟩,
                  product := "PRODRIVE LPS0S",
                  ready := true }) ∧
    (0 : Nat) ≠ 2 ^ 41 / 512 := by
  refine ⟨rfl, ?_⟩
  norm_num

/-- C1 (amended): for every byte size that is a multiple of 512 and at
most 2^41, `Open` succeeds, sets the sector-size exponent to 9, and sets
the block count to `(byteSize / 512) % 2^32`; whenever the byte size is
strictly below 2^41 this equals `byteSize / 512` (the `uint32` cast only
truncates at exactly 2^41). -/
theorem open_success_geometry (s : DeviceState) (size : Nat)
    (hmul : size % 512 = 0) (hle : size ≤ 2 ^ 41) :
    ∃ s2, Open s true size = Except.ok s2 ∧ s2.disk.size = 9 ∧
      s2.disk.blocks = size / 512 % 2 ^ 32 ∧
      (size < 2 ^ 41 → s2.disk.blocks = size / 512) := by
  have h1 : ¬ (size &&& 0x1ff ≠ 0) := by rw [land511_eq_mod]; omega
  have h2 : ¬ (size > 2 * 1024 * 1024 * 1024 * 1024) := by
    rw [twoTB_eq]; omega
  refine ⟨{ s with
            disk := ⟨9, (size >>> 9) % 2 ^ 32⟩,
            product := productName (((size >>> 9) % 2 ^ 32) >>> 11),
            ready := true }, ?_, rfl, ?_, ?_⟩
  · unfold Open
    rw [Bool.not_true, if_neg (by simp), if_neg h1, if_neg h2]
  · show (size >>> 9) % 2 ^ 32 = size / 512 % 2 ^ 32
    rw [shiftRight9_eq_div]
  · intro hlt
    show (size >>> 9) % 2 ^ 32 = size / 512
    rw [shiftRight9_eq_div]
    have h3 : size / 512 < 2 ^ 32 := by omega
    omega

/-- C1 witness: a 512-byte store opens with exponent 9 and one block. -/
theorem open_success_geometry_witness :
    ∃ s2, Open initState true 512 = Except.ok s2 ∧ s2.disk.size = 9 ∧
      s2.disk.blocks = 512 / 512 % 2 ^ 32 ∧
      (512 < 2 ^ 41 → s2.disk.blocks = 512 / 512) :=
  open_success_geometry initState 512 (by decide) (by decide)

/-- C6: whenever the backing store cannot be opened read-only, or the
byte size is not a multiple of 512, or it exceeds 2^41, `Open` throws an
IOError; the caller sees the device state unchanged, so `ready` keeps
its prior value (false before a successful Open). -/
theorem open_failure_state_unchanged (s : DeviceState) (fileOpenOk : Bool)
    (size : Nat)
    (hbad : fileOpenOk = false ∨ size % 512 ≠ 0 ∨ 2 ^ 41 < size) :
    (∃ msg, Open s fileOpenOk size = Except.error msg) ∧
    OpenRun s fileOpenOk size = (s, false) ∧
    (OpenRun s fileOpenOk size).1.ready = s.ready := by
  have herr : ∃ msg, Open s fileOpenOk size = Except.error msg := by
    unfold Open
    cases fileOpenOk
    · exact ⟨_, rfl⟩
    · rw [Bool.not_true, if_neg (by simp)]
      rcases hbad with h | h | h
      · simp at h
      · rw [if_pos (by rw [land511_eq_mod]; omega)]
        exact ⟨_, rfl⟩
      · by_cases hm : size &&& 0x1ff ≠ 0
        · rw [if_pos hm]
          exact ⟨_, rfl⟩
        · rw [if_neg hm, if_pos (by rw [twoTB_eq]; omega)]
          exact ⟨_, rfl⟩
  obtain ⟨msg, hmsg⟩ := herr
  refine ⟨⟨msg, hmsg⟩, ?_, ?_⟩
  · unfold OpenRun
    rw [hmsg]
  · unfold OpenRun
    rw [hmsg]

/-- C6 witness: a 100-byte store (not a multiple of 512) is rejected
with the device state untouched. -/
theorem open_failure_state_unchanged_witness :
    (∃ msg, Open initState true 100 = Except.error msg) ∧
    OpenRun initState true 100 = (initState, false) ∧
    (OpenRun initState true 100).1.ready = initState.ready :=
  open_failure_state_unchanged initState true 100 (by decide)

/-- C3: after a successful `Open` the product identity is
`productName (blockCount >> 11)`, and `productName` picks its template by
first-match-wins ordered thresholds, with the exact boundary values
299 / 300 / 599 / 600 / 2000 as stated. -/
theorem open_product_tiers (s : DeviceState) (size c : Nat)
    (hmul : size % 512 = 0) (hle : size ≤ 2 ^ 41) :
    (∃ s2, Open s true size = Except.ok s2 ∧
        s2.product = productName (s2.disk.blocks >>> 11)) ∧
    (c < 300 → productName c = "PRODRIVE LPS" ++ toString c ++ "S") ∧
    (300 ≤ c → c < 600 → productName c = "MAVERICK" ++ toString c ++ "S") ∧
    (600 ≤ c → c < 800 → productName c = "LIGHTNING" ++ toString c ++ "S") ∧
    (800 ≤ c → c < 1000 →
        productName c = "TRAILBRAZER" ++ toString c ++ "S") ∧
    (1000 ≤ c → c < 2000 →
        productName c = "FIREBALL" ++ toString c ++ "S") ∧
    (2000 ≤ c → productName c = "FBSE" ++ toString (c / 1000) ++ "." ++
        toString (c % 1000 / 100) ++ "S") ∧
    productName 299 = "PRODRIVE LPS299S" ∧
    productName 300 = "MAVERICK300S" ∧
    productName 599 = "MAVERICK599S" ∧
    productName 600 = "LIGHTNING600S" ∧
    productName 2000 = "FBSE2.0S" := by
  have h1 : ¬ (size &&& 0x1ff ≠ 0) := by rw [land511_eq_mod]; omega
  have h2 : ¬ (size > 2 * 1024 * 1024 * 1024 * 1024) := by
    rw [twoTB_eq]; omega
  refine ⟨⟨{ s with
             disk := ⟨9, (size >>> 9) % 2 ^ 32⟩,
             product := productName (((size >>> 9) % 2 ^ 32) >>> 11),
             ready := true }, ?_, rfl⟩, ?_, ?_, ?_, ?_, ?_, ?_,
         by decide, by decide, by decide, by decide, by decide⟩
  · unfold Open
    rw [Bool.not_true, if_neg (by simp), if_neg h1, if_neg h2]
  · intro h
    unfold productName
    rw [if_pos h]
  · intro ha hb
    unfold productName
    rw [if_neg (by omega), if_pos hb]
  · intro ha hb
    unfold productName
    rw [if_neg (by omega), if_neg (by omega), if_pos hb]
  · intro ha hb
    unfold productName
    rw [if_neg (by omega), if_neg (by omega), if_neg (by omega),
        if_pos hb]
  · intro ha hb
    unfold productName
    rw [if_neg (by omega), if_neg (by omega), if_neg (by omega),
        if_neg (by omega), if_pos hb]
  · intro ha
    unfold productName
    rw [if_neg (by omega), if_neg (by omega), if_neg (by omega),
        if_neg (by omega), if_neg (by omega)]

/-- C3 witness: instantiated at a 512-byte store and capacity unit 299;
in particular the 299 / 300 / 599 / 600 / 2000 boundary names hold. -/
theorem open_product_tiers_witness :
    (∃ s2, Open initState true 512 = Except.ok s2 ∧
        s2.product = productName (s2.disk.blocks >>> 11)) ∧
    (299 < 300 → productName 299 = "PRODRIVE LPS" ++ toString 299 ++ "S") ∧
    (300 ≤ 299 → 299 < 600 →
        productName 299 = "MAVERICK" ++ toString 299 ++ "S") ∧
    (600 ≤ 299 → 299 < 800 →
        productName 299 = "LIGHTNING" ++ toString 299 ++ "S") ∧
    (800 ≤ 299 → 299 < 1000 →
        productName 299 = "TRAILBRAZER" ++ toString 299 ++ "S") ∧
    (1000 ≤ 299 → 299 < 2000 →
        productName 299 = "FIREBALL" ++ toString 299 ++ "S") ∧
    (2000 ≤ 299 → productName 299 = "FBSE" ++ toString (299 / 1000) ++
        "." ++ toString (299 % 1000 / 100) ++ "S") ∧
    productName 299 = "PRODRIVE LPS299S" ∧
    productName 300 = "MAVERICK300S" ∧
    productName 599 = "MAVERICK599S" ∧
    productName 600 = "LIGHTNING600S" ∧
    productName 2000 = "FBSE2.0S" :=
  open_product_tiers initState 512 299 (by decide) (by decide)

/-- C5: `Inquiry` on a ready device with the VPD flag clear writes 125
into response byte 4 (the additional-length field), returns
`min (125 + 5) allocationLength` where the allocation length is the CDB
byte `cdb[4]`, and sets the status to NoError. -/
theorem inquiry_ready_response (s : DeviceState) (cdb buf : Nat → Nat)
    (lun : Nat) (hready : s.ready = true) (hvpd : cdb 1 &&& 0x01 = 0)
    (halloc : cdb 4 < 256) :
    (Inquiry s cdb buf lun).buf 4 = 125 ∧
    (Inquiry s cdb buf lun).size = min 130 (cdb 4 : Int) ∧
    (Inquiry s cdb buf lun).state.status = StatusCode.noError := by
  have hc : toInt32 (cdb 4) = (cdb 4 : Int) := by
    unfold toInt32
    rw [Nat.mod_eq_of_lt (by omega), if_pos (by omega)]
  unfold Inquiry
  rw [if_neg (by simp [hvpd]), if_neg (by simp [hready])]
  refine ⟨?_, ?_, ?_⟩
  · norm_num
  · norm_num [hc]
    omega
  · rfl

/-- C5 witness: a ready device answering a VPD=0 request with allocation
length 100 returns 100 bytes and reports 125 additional bytes. -/
theorem inquiry_ready_response_witness :
    (Inquiry { initState with ready := true }
        (fun i => if i = 4 then 100 else 0) (fun _ => 0) 0).buf 4 = 125 ∧
    (Inquiry { initState with ready := true }
        (fun i => if i = 4 then 100 else 0) (fun _ => 0) 0).size =
      min 130 ((if (4 : Nat) = 4 then (100 : Nat) else 0) : Int) ∧
    (Inquiry { initState with ready := true }
        (fun i => if i = 4 then 100 else 0) (fun _ => 0) 0).state.status =
      StatusCode.noError :=
  inquiry_ready_response { initState with ready := true }
    (fun i => if i = 4 then 100 else 0) (fun _ => 0) 0 rfl (by decide)
    (by decide)

/-- C4: `ModeSelect` with the page-format flag set and `length ≥ 12`
rejects a header whose 3-byte big-endian block length (bytes 9..11)
differs from `1 << disk.size`: it returns FALSE with status
InvalidParam, parses no page, and leaves the sector geometry
untouched. -/
theorem modeSelect_header_mismatch (s : DeviceState) (cdb buf : Nat → Nat)
    (length : Int) (hpf : cdb 1 &&& 0x10 ≠ 0) (hlen : 12 ≤ length)
    (hexp : s.disk.size < 24)
    (hmis : buf 9 * 65536 + buf 10 * 256 + buf 11 ≠ 1 <<< s.disk.size) :
    (ModeSelect s cdb buf length).ok = false ∧
    (ModeSelect s cdb buf length).state =
      { s with status := StatusCode.invalidPrm } ∧
    (ModeSelect s cdb buf length).pageStarts = [] ∧
    (ModeSelect s cdb buf length).state.disk = s.disk := by
  have hn : (1 <<< s.disk.size) < 2 ^ 24 := by
    rw [Nat.one_shiftLeft]
    exact Nat.pow_lt_pow_right (by norm_num) hexp
  have hsplit : ¬ (buf 9 = ((1 <<< s.disk.size) >>> 16) % 256 ∧
      buf 10 = ((1 <<< s.disk.size) >>> 8) % 256 ∧
      buf 11 = (1 <<< s.disk.size) % 256) := by
    rintro ⟨e9, e10, e11⟩
    apply hmis
    rw [e9, e10, e11]
    generalize (1 <<< s.disk.size) = n at hn ⊢
    rw [Nat.shiftRight_eq_div_pow, Nat.shiftRight_eq_div_pow]
    omega
  unfold ModeSelect
  rw [if_pos hpf, if_pos hlen]
  by_cases h9 : buf 9 ≠ ((1 <<< s.disk.size) >>> 16) % 256
  · rw [if_pos h9]
    exact ⟨rfl, rfl, rfl, rfl⟩
  · rw [if_neg h9]
    by_cases h10 : buf 10 ≠ ((1 <<< s.disk.size) >>> 8) % 256
    · rw [if_pos h10]
      exact ⟨rfl, rfl, rfl, rfl⟩
    · rw [if_neg h10]
      rw [if_pos (show buf 11 ≠ (1 <<< s.disk.size) % 256 by
        push_neg at h9 h10
        intro h11
        exact hsplit ⟨h9, h10, h11⟩)]
      exact ⟨rfl, rfl, rfl, rfl⟩

/-- C4 witness: a device with 512-byte sectors rejects an all-zero
12-byte header (encoded block length 0 ≠ 512) without touching its
geometry. -/
theorem modeSelect_header_mismatch_witness :
    (ModeSelect { initState with disk := ⟨9, 2048⟩ }
        (fun i => if i = 1 then 0x10 else 0) (fun _ => 0) 12).ok = false ∧
    (ModeSelect { initState with disk := ⟨9, 2048⟩ }
        (fun i => if i = 1 then 0x10 else 0) (fun _ => 0) 12).state =
      { { initState with disk := ⟨9, 2048⟩ } with
        status := StatusCode.invalidPrm } ∧
    (ModeSelect { initState with disk := ⟨9, 2048⟩ }
        (fun i => if i = 1 then 0x10 else 0) (fun _ => 0) 12).pageStarts =
      [] ∧
    (ModeSelect { initState with disk := ⟨9, 2048⟩ }
        (fun i => if i = 1 then 0x10 else 0) (fun _ => 0) 12).state.disk =
      ({ initState with disk := ⟨9, 2048⟩ } : DeviceState).disk :=
  modeSelect_header_mismatch { initState with disk := ⟨9, 2048⟩ }
    (fun i => if i = 1 then 0x10 else 0) (fun _ => 0) 12 (by decide)
    (by decide) (by decide) (by decide)

/-! ### Branch-evaluation lemmas for the page loop -/

theorem parsePages_mismatch1 (e : Nat) (buf : Nat → Nat) (off : Nat)
    (length : Int) (h0 : 0 < length)
    (hm : buf off = 3 ∧ buf (off + 12) ≠ (1 <<< e) >>> 8 % 256) :
    parsePages e buf off length = ⟨false, [off, off + 12], [off]⟩ := by
  conv_lhs => rw [parsePages.eq_def]
  rw [dif_pos h0, if_pos hm]

theorem parsePages_mismatch2 (e : Nat) (buf : Nat → Nat) (off : Nat)
    (length : Int) (h0 : 0 < length)
    (hn1 : ¬(buf off = 3 ∧ buf (off + 12) ≠ (1 <<< e) >>> 8 % 256))
    (hm : buf off = 3 ∧ buf (off + 13) ≠ (1 <<< e) % 256) :
    parsePages e buf off length =
      ⟨false, [off, off + 12, off + 13], [off]⟩ := by
  conv_lhs => rw [parsePages.eq_def]
  rw [dif_pos h0, if_neg hn1, if_pos hm]

theorem parsePages_step (e : Nat) (buf : Nat → Nat) (off : Nat)
    (length : Int) (h0 : 0 < length)
    (hn1 : ¬(buf off = 3 ∧ buf (off + 12) ≠ (1 <<< e) >>> 8 % 256))
    (hn2 : ¬(buf off = 3 ∧ buf (off + 13) ≠ (1 <<< e) % 256)) :
    parsePages e buf off length =
      ⟨(parsePages e buf (off + (buf (off + 1) + 2))
          (length - ((buf (off + 1) + 2 : Nat) : Int))).ok,
       off :: (if buf off = 3 then [off + 12, off + 13]
               else if buf off = 8 then
                 (List.range length.toNat).map (fun i => off + i)
               else []) ++
         (off + 1) :: (parsePages e buf (off + (buf (off + 1) + 2))
           (length - ((buf (off + 1) + 2 : Nat) : Int))).accesses,
       off :: (parsePages e buf (off + (buf (off + 1) + 2))
         (length - ((buf (off + 1) + 2 : Nat) : Int))).pageStarts⟩ := by
  conv_lhs => rw [parsePages.eq_def]
  rw [dif_pos h0, if_neg hn1, if_neg hn2]

theorem parsePages_stop (e : Nat) (buf : Nat → Nat) (off : Nat)
    (length : Int) (h0 : ¬ 0 < length) :
    parsePages e buf off length = ⟨true, [], []⟩ := by
  conv_lhs => rw [parsePages.eq_def]
  rw [dif_neg h0]

/-- If every visited page with code 3 carries the device's block length
at offsets 0xc/0xd, the loop runs to completion. -/
theorem parsePages_all_format_match (e : Nat) (buf : Nat → Nat) :
    ∀ (off : Nat) (length : Int),
    (∀ p ∈ (parsePages e buf off length).pageStarts, buf p = 3 →
        buf (p + 12) = (1 <<< e) >>> 8 % 256 ∧
        buf (p + 13) = (1 <<< e) % 256) →
    (parsePages e buf off length).ok = true := by
  intro off length
  induction off, length using parsePages.induct e buf with
  | case1 off length h0 page hm =>
    intro H
    rw [parsePages_mismatch1 e buf off length h0 hm] at H
    exact absurd (H off (by simp) hm.1).1 hm.2
  | case2 off length h0 page hn1 hm =>
    intro H
    rw [parsePages_mismatch2 e buf off length h0 hn1 hm] at H
    exact absurd (H off (by simp) hm.1).2 hm.2
  | case3 off length h0 page hn1 hn2 adv IH =>
    intro H
    rw [parsePages_step e buf off length h0 hn1 hn2] at H ⊢
    show (parsePages e buf (off + (buf (off + 1) + 2))
        (length - ((buf (off + 1) + 2 : Nat) : Int))).ok = true
    have IH2 : (∀ p ∈ (parsePages e buf (off + (buf (off + 1) + 2))
          (length - ((buf (off + 1) + 2 : Nat) : Int))).pageStarts,
          buf p = 3 →
          buf (p + 12) = (1 <<< e) >>> 8 % 256 ∧
          buf (p + 13) = (1 <<< e) % 256) →
        (parsePages e buf (off + (buf (off + 1) + 2))
          (length - ((buf (off + 1) + 2 : Nat) : Int))).ok = true := IH
    exact IH2 (fun p hp => H p (List.mem_cons_of_mem _ hp))
  | case4 off length h0 =>
    intro H
    rw [parsePages_stop e buf off length h0]

/-- Each loop iteration consumes at least two bytes of the remaining
length, so the number of visited pages is bounded by half the length. -/
theorem parsePages_count_le (e : Nat) (buf : Nat → Nat) :
    ∀ (off : Nat) (length : Int),
      2 * (parsePages e buf off length).pageStarts.length ≤
        length.toNat + 1 := by
  intro off length
  induction off, length using parsePages.induct e buf with
  | case1 off length h0 page hm =>
    rw [parsePages_mismatch1 e buf off length h0 hm]
    simp only [List.length_cons, List.length_nil]
    omega
  | case2 off length h0 page hn1 hm =>
    rw [parsePages_mismatch2 e buf off length h0 hn1 hm]
    simp only [List.length_cons, List.length_nil]
    omega
  | case3 off length h0 page hn1 hn2 adv IH =>
    rw [parsePages_step e buf off length h0 hn1 hn2]
    have IH2 : 2 * (parsePages e buf (off + (buf (off + 1) + 2))
        (length - ((buf (off + 1) + 2 : Nat) : Int))).pageStarts.length ≤
        (length - ((buf (off + 1) + 2 : Nat) : Int)).toNat + 1 := IH
    simp only [List.length_cons]
    omega
  | case4 off length h0 =>
    rw [parsePages_stop e buf off length h0]
    simp

/-- Every offset the loop reads is below `N` provided every visited page
starts at least 2 bytes before `N` and every visited page with code 3
starts at least 14 bytes before `N`; `N` is tied to the cursor by the
invariant `off + remaining = N`. -/
theorem parsePages_accesses_lt (e : Nat) (buf : Nat → Nat) (N : Int) :
    ∀ (off : Nat) (length : Int), (off : Int) + length = N →
    (∀ p ∈ (parsePages e buf off length).pageStarts,
        (p : Int) + 2 ≤ N ∧ (buf p = 3 → (p : Int) + 14 ≤ N)) →
    ∀ a ∈ (parsePages e buf off length).accesses, (a : Int) < N := by
  intro off length
  induction off, length using parsePages.induct e buf with
  | case1 off length h0 page hm =>
    intro hinv H a ha
    rw [parsePages_mismatch1 e buf off length h0 hm] at H ha
    have h14 := (H off (by simp)).2 hm.1
    simp only [List.mem_cons, List.not_mem_nil, or_false] at ha
    rcases ha with rfl | rfl <;> push_cast <;> omega
  | case2 off length h0 page hn1 hm =>
    intro hinv H a ha
    rw [parsePages_mismatch2 e buf off length h0 hn1 hm] at H ha
    have h14 := (H off (by simp)).2 hm.1
    simp only [List.mem_cons, List.not_mem_nil, or_false] at ha
    rcases ha with rfl | rfl | rfl <;> push_cast <;> omega
  | case3 off length h0 page hn1 hn2 adv IH =>
    intro hinv H a ha
    rw [parsePages_step e buf off length h0 hn1 hn2] at H ha
    have IH2 : ((off + (buf (off + 1) + 2) : Nat) : Int) +
          (length - ((buf (off + 1) + 2 : Nat) : Int)) = N →
        (∀ p ∈ (parsePages e buf (off + (buf (off + 1) + 2))
            (length - ((buf (off + 1) + 2 : Nat) : Int))).pageStarts,
            (p : Int) + 2 ≤ N ∧ (buf p = 3 → (p : Int) + 14 ≤ N)) →
        ∀ a ∈ (parsePages e buf (off + (buf (off + 1) + 2))
            (length - ((buf (off + 1) + 2 : Nat) : Int))).accesses,
          (a : Int) < N := IH
    have hrec := IH2 (by push_cast; omega)
      (fun p hp => H p (List.mem_cons_of_mem _ hp))
    have hoff := H off (List.mem_cons_self _ _)
    simp only [List.mem_append, List.mem_cons] at ha
    rcases ha with (rfl | hca) | (rfl | ha)
    · omega
    · by_cases h3 : buf off = 3
      · rw [if_pos h3] at hca
        have h14 := hoff.2 h3
        simp only [List.mem_cons, List.not_mem_nil, or_false] at hca
        rcases hca with rfl | rfl <;> push_cast <;> omega
      · rw [if_neg h3] at hca
        by_cases h8 : buf off = 8
        · rw [if_pos h8] at hca
          simp only [List.mem_map, List.mem_range] at hca
          obtain ⟨i, hi, rfl⟩ := hca
          push_cast
          omega
        · rw [if_neg h8] at hca
          simp at hca
    · have h2 := hoff.1
      push_cast
      omega
    · exact hrec a ha
  | case4 off length h0 =>
    intro hinv H a ha
    rw [parsePages_stop e buf off length h0] at ha
    simp at ha

/-! ### Branch-evaluation lemmas for ModeSelect -/

theorem modeSelect_nopf (s : DeviceState) (cdb buf : Nat → Nat)
    (length : Int) (hpf : ¬ cdb 1 &&& 0x10 ≠ 0) :
    ModeSelect s cdb buf length =
      ⟨true, { s with status := StatusCode.noError }, [], []⟩ := by
  unfold ModeSelect
  rw [if_neg hpf]

theorem modeSelect_header_ok (s : DeviceState) (cdb buf : Nat → Nat)
    (length : Int) (hpf : cdb 1 &&& 0x10 ≠ 0) (hlen : 12 ≤ length)
    (e9 : buf 9 = (1 <<< s.disk.size) >>> 16 % 256)
    (e10 : buf 10 = (1 <<< s.disk.size) >>> 8 % 256)
    (e11 : buf 11 = (1 <<< s.disk.size) % 256) :
    (ModeSelect s cdb buf length).accesses =
      [9, 10, 11] ++ (parsePages s.disk.size buf 12 (length - 12)).accesses ∧
    (ModeSelect s cdb buf length).pageStarts =
      (parsePages s.disk.size buf 12 (length - 12)).pageStarts ∧
    (ModeSelect s cdb buf length).ok =
      (parsePages s.disk.size buf 12 (length - 12)).ok ∧
    (ModeSelect s cdb buf length).state =
      { s with status := if (parsePages s.disk.size buf 12 (length - 12)).ok
                         then StatusCode.noError
                         else StatusCode.invalidPrm } := by
  unfold ModeSelect
  rw [if_pos hpf, if_pos hlen, if_neg (not_not_intro e9),
      if_neg (not_not_intro e10), if_neg (not_not_intro e11)]
  refine ⟨?_, ?_, ?_, ?_⟩ <;> dsimp only <;> split <;> simp_all

theorem modeSelect_noheader (s : DeviceState) (cdb buf : Nat → Nat)
    (length : Int) (hpf : cdb 1 &&& 0x10 ≠ 0) (hlen : ¬ 12 ≤ length) :
    (ModeSelect s cdb buf length).accesses =
      (parsePages s.disk.size buf 0 length).accesses ∧
    (ModeSelect s cdb buf length).pageStarts =
      (parsePages s.disk.size buf 0 length).pageStarts ∧
    (ModeSelect s cdb buf length).ok =
      (parsePages s.disk.size buf 0 length).ok ∧
    (ModeSelect s cdb buf length).state =
      { s with status := if (parsePages s.disk.size buf 0 length).ok
                         then StatusCode.noError
                         else StatusCode.invalidPrm } := by
  unfold ModeSelect
  rw [if_pos hpf, if_neg hlen]
  refine ⟨?_, ?_, ?_, ?_⟩ <;> dsimp only <;> split <;> simp_all

/-- C8: `ModeSelect` with the page-format flag set succeeds with status
NoError whenever the header (when present) matches the current block
length and every visited page with code 3 matches the current sector
size — pages with unknown codes or code 8 are skipped and never cause
failure. -/
theorem modeSelect_unknown_pages_tolerated (s : DeviceState)
    (cdb buf : Nat → Nat) (length : Int) (hpf : cdb 1 &&& 0x10 ≠ 0)
    (hheader : 12 ≤ length →
        buf 9 = (1 <<< s.disk.size) >>> 16 % 256 ∧
        buf 10 = (1 <<< s.disk.size) >>> 8 % 256 ∧
        buf 11 = (1 <<< s.disk.size) % 256)
    (hpages : ∀ p ∈ (ModeSelect s cdb buf length).pageStarts,
        buf p = 3 →
        buf (p + 12) = (1 <<< s.disk.size) >>> 8 % 256 ∧
        buf (p + 13) = (1 <<< s.disk.size) % 256) :
    (ModeSelect s cdb buf length).ok = true ∧
    (ModeSelect s cdb buf length).state =
      { s with status := StatusCode.noError } := by
  by_cases hlen : 12 ≤ length
  · obtain ⟨e9, e10, e11⟩ := hheader hlen
    obtain ⟨-, hps, hok, hst⟩ :=
      modeSelect_header_ok s cdb buf length hpf hlen e9 e10 e11
    have hpok : (parsePages s.disk.size buf 12 (length - 12)).ok = true :=
      parsePages_all_format_match _ _ _ _
        (fun p hp h3 => hpages p (by rw [hps]; exact hp) h3)
    constructor
    · rw [hok, hpok]
    · rw [hst, hpok]
      rfl
  · obtain ⟨-, hps, hok, hst⟩ :=
      modeSelect_noheader s cdb buf length hpf hlen
    have hpok : (parsePages s.disk.size buf 0 length).ok = true :=
      parsePages_all_format_match _ _ _ _
        (fun p hp h3 => hpages p (by rw [hps]; exact hp) h3)
    constructor
    · rw [hok, hpok]
    · rw [hst, hpok]
      rfl

/-- C10: the page loop terminates — each iteration consumes
`buf[1] + 2 ≥ 2` bytes of the remaining length, so the number of pages
visited (by the loop in isolation and through `ModeSelect`) is bounded
by half the length, rounded up. -/
theorem modeSelect_loop_terminates (s : DeviceState) (cdb buf : Nat → Nat)
    (length : Int) (e off : Nat) (len : Int) :
    2 * (parsePages e buf off len).pageStarts.length ≤ len.toNat + 1 ∧
    2 * (ModeSelect s cdb buf length).pageStarts.length ≤
      length.toNat + 1 := by
  refine ⟨parsePages_count_le e buf off len, ?_⟩
  by_cases hpf : cdb 1 &&& 0x10 ≠ 0
  · by_cases hlen : 12 ≤ length
    · by_cases h9 : buf 9 ≠ (1 <<< s.disk.size) >>> 16 % 256
      · unfold ModeSelect
        rw [if_pos hpf, if_pos hlen, if_pos h9]
        simp
      · by_cases h10 : buf 10 ≠ (1 <<< s.disk.size) >>> 8 % 256
        · unfold ModeSelect
          rw [if_pos hpf, if_pos hlen, if_neg h9, if_pos h10]
          simp
        · by_cases h11 : buf 11 ≠ (1 <<< s.disk.size) % 256
          · unfold ModeSelect
            rw [if_pos hpf, if_pos hlen, if_neg h9, if_neg h10,
                if_pos h11]
            simp
          · push_neg at h9 h10 h11
            obtain ⟨-, hps, -, -⟩ :=
              modeSelect_header_ok s cdb buf length hpf hlen h9 h10 h11
            rw [hps]
            have hc := parsePages_count_le s.disk.size buf 12 (length - 12)
            omega
    · obtain ⟨-, hps, -, -⟩ := modeSelect_noheader s cdb buf length hpf hlen
      rw [hps]
      have hc := parsePages_count_le s.disk.size buf 0 length
      omega
  · rw [modeSelect_nopf s cdb buf length hpf]
    simp

/-- C2 counterexample: with the page-format flag set, a 2-byte parameter
list whose single page has code 3 makes the parse read offset 12
(`buf[0xc]`), which is outside the buffer of length 2. -/
theorem modeSelect_oob_read_short_format_page :
    12 ∈ (ModeSelect { initState with disk := ⟨9, 2048⟩ }
        (fun i => if i = 1 then 0x10 else 0)
        (fun i => if i = 0 then 3 else 0) 2).accesses ∧
    ¬ ((12 : Nat) < 2) := by
  constructor
  · simp [ModeSelect, parsePages]
  · decide

/-- C2 (amended): every byte offset the parse reads lies in
`[0, length)` provided every visited page start has at least 2 bytes of
the buffer remaining and every visited page with code 3 has at least 14
bytes remaining; without those provisos the parse reads out of bounds
(the length byte at `start + 1` and, for page code 3, the block-length
bytes at `start + 12` / `start + 13` are read unconditionally). -/
theorem modeSelect_accesses_in_bounds (s : DeviceState)
    (cdb buf : Nat → Nat) (length : Int)
    (hpages : ∀ p ∈ (ModeSelect s cdb buf length).pageStarts,
        (p : Int) + 2 ≤ length ∧ (buf p = 3 → (p : Int) + 14 ≤ length)) :
    ∀ a ∈ (ModeSelect s cdb buf length).accesses, (a : Int) < length := by
  by_cases hpf : cdb 1 &&& 0x10 ≠ 0
  · by_cases hlen : 12 ≤ length
    · by_cases h9 : buf 9 ≠ (1 <<< s.disk.size) >>> 16 % 256
      · intro a ha
        unfold ModeSelect at ha
        rw [if_pos hpf, if_pos hlen, if_pos h9] at ha
        simp only [List.mem_cons, List.not_mem_nil, or_false] at ha
        subst ha
        push_cast
        omega
      · by_cases h10 : buf 10 ≠ (1 <<< s.disk.size) >>> 8 % 256
        · intro a ha
          unfold ModeSelect at ha
          rw [if_pos hpf, if_pos hlen, if_neg h9, if_pos h10] at ha
          simp only [List.mem_cons, List.not_mem_nil, or_false] at ha
          rcases ha with rfl | rfl <;> push_cast <;> omega
        · by_cases h11 : buf 11 ≠ (1 <<< s.disk.size) % 256
          · intro a ha
            unfold ModeSelect at ha
            rw [if_pos hpf, if_pos hlen, if_neg h9, if_neg h10,
                if_pos h11] at ha
            simp only [List.mem_cons, List.not_mem_nil, or_false] at ha
            rcases ha with rfl | rfl | rfl <;> push_cast <;> omega
          · push_neg at h9 h10 h11
            obtain ⟨hacc, hps, -, -⟩ :=
              modeSelect_header_ok s cdb buf length hpf hlen h9 h10 h11
            intro a ha
            rw [hacc] at ha
            simp only [List.mem_append, List.mem_cons,
              List.not_mem_nil, or_false] at ha
            rcases ha with (rfl | rfl | rfl) | ha
            · push_cast; omega
            · push_cast; omega
            · push_cast; omega
            · exact parsePages_accesses_lt s.disk.size buf length 12
                (length - 12) (by push_cast; omega)
                (fun p hp => hpages p (by rw [hps]; exact hp)) a ha
    · obtain ⟨hacc, hps, -, -⟩ :=
        modeSelect_noheader s cdb buf length hpf hlen
      intro a ha
      rw [hacc] at ha
      exact parsePages_accesses_lt s.disk.size buf length 0 length
        (by push_cast; omega)
        (fun p hp => hpages p (by rw [hps]; exact hp)) a ha
  · intro a ha
    rw [modeSelect_nopf s cdb buf length hpf] at ha
    simp at ha

/-- C8 witness: a PF-flagged parameter list of two unknown pages (codes
0) on a 512-byte-sector device succeeds with NoError. -/
theorem modeSelect_unknown_pages_tolerated_witness :
    (ModeSelect { initState with disk := ⟨9, 2048⟩ }
        (fun i => if i = 1 then 0x10 else 0) (fun _ => 0) 4).ok = true ∧
    (ModeSelect { initState with disk := ⟨9, 2048⟩ }
        (fun i => if i = 1 then 0x10 else 0) (fun _ => 0) 4).state =
      { { initState with disk := ⟨9, 2048⟩ } with
        status := StatusCode.noError } :=
  modeSelect_unknown_pages_tolerated { initState with disk := ⟨9, 2048⟩ }
    (fun i => if i = 1 then 0x10 else 0) (fun _ => 0) 4 (by decide)
    (fun h => absurd h (by decide))
    (fun p _ h3 => by simp at h3)

/-- C2 witness: on a well-formed one-page parameter list of length 2 the
access at offset 0 (the instantiated conclusion) is within bounds. -/
theorem modeSelect_accesses_in_bounds_witness : ((0 : Nat) : Int) < 2 :=
  modeSelect_accesses_in_bounds { initState with disk := ⟨9, 2048⟩ }
    (fun i => if i = 1 then 0x10 else 0) (fun _ => 0) 2
    (by
      intro p hp
      simp [ModeSelect, parsePages] at hp
      subst hp
      exact ⟨by decide, fun h => absurd h (by decide)⟩)
    0 (by simp [ModeSelect, parsePages])

end RASCSI
